import Mathlib

/-
Verification development for the HTTP/1.x head parser in src/request.rs.

Modelling conventions:
* Text is modelled as `List Nat` of Unicode scalar values; byte streams as
  `List Nat` of byte values.  `s2l` converts a Lean string literal to the model.
* Rust's `str` functions used by the parser (`lines`, `split_whitespace`,
  `split`, `trim`, `trim_left`, `to_lowercase`, `contains`) are embedded as
  executable functions on `List Nat` below, following their documented
  semantics.  `to_lowercase` is modelled on the ASCII range (all inputs in the
  repository are ASCII); `char::is_whitespace` uses the Unicode White_Space
  list.
* `u8::from_str_radix(s, 10)` is embedded with Rust's sign handling: one
  optional leading plus sign, at least one digit, base-10 accumulation that
  fails above 255; a minus sign fails for the unsigned type.
* `str::from_utf8` is embedded as `utf8decode`, a full UTF-8 validator
  (rejecting overlong forms, surrogates and values above 0x10FFFF) returning
  the decoded scalar values.
* The `HashMap` of headers is modelled as an association list with
  replace-on-insert semantics (`insertHeader`); `ParserError`'s `IOError`
  payload (`io::Error`) and `Uft8Error` payload (`str::Utf8Error`) are elided
  since no theorem inspects them.
* `RequestParser` holds the written prefix of its fixed 8192-byte buffer as a
  list; `buffer_position` is that list's length.  `read_stream` takes the
  bytes the source delivers in one `read` call; the slice handed to `read`
  has length `BUFFER_SIZE - buffer_position`, so the delivered bytes are
  truncated to that many, and it returns the Rust function's return value
  paired with the mutated parser state.
-/

namespace RustHttp

/-- Convert a Lean string literal to the `List Nat` text model. -/
def s2l (s : String) : List Nat := s.data.map Char.toNat

/-- Rust `char::is_whitespace` (the Unicode White_Space property). -/
def isWs (c : Nat) : Bool :=
  c == 9 || c == 10 || c == 11 || c == 12 || c == 13 || c == 32 ||
  c == 0x85 || c == 0xA0 || c == 0x1680 ||
  (0x2000 ≤ c && c ≤ 0x200A) || c == 0x2028 || c == 0x2029 ||
  c == 0x202F || c == 0x205F || c == 0x3000

/-- One character of `str::to_lowercase`, modelled on the ASCII range. -/
def lowerChar (c : Nat) : Nat := if 65 ≤ c ∧ c ≤ 90 then c + 32 else c

/-- Rust `str::to_lowercase`, modelled on the ASCII range. -/
def toLowercase (s : List Nat) : List Nat := s.map lowerChar

/-- Rust `str::trim_left` (drop leading whitespace). -/
def trimLeft (s : List Nat) : List Nat := s.dropWhile isWs

/-- Rust `str::trim` (drop leading and trailing whitespace). -/
def trimWs (s : List Nat) : List Nat :=
  ((s.dropWhile isWs).reverse.dropWhile isWs).reverse

/-- Accumulator worker for `splitOnChar`; `acc` is the current piece reversed. -/
def splitOnCharAux (sep : Nat) : List Nat → List Nat → List (List Nat)
  | [], acc => [acc.reverse]
  | c :: rest, acc =>
    if c = sep then acc.reverse :: splitOnCharAux sep rest []
    else splitOnCharAux sep rest (c :: acc)

/-- Rust `str::split(sep)` for a one-character separator: all pieces, in order
(always at least one piece). -/
def splitOnChar (sep : Nat) (s : List Nat) : List (List Nat) :=
  splitOnCharAux sep s []

/-- Accumulator worker for `splitWs`; `acc` is the current token reversed. -/
def splitWsAux : List Nat → List Nat → List (List Nat)
  | [], acc => if acc = [] then [] else [acc.reverse]
  | c :: rest, acc =>
    if isWs c then
      if acc = [] then splitWsAux rest []
      else acc.reverse :: splitWsAux rest []
    else splitWsAux rest (c :: acc)

/-- Rust `str::split_whitespace`: maximal non-whitespace runs, no empties. -/
def splitWs (s : List Nat) : List (List Nat) := splitWsAux s []

/-- Is `p` a prefix of `l` (as a Bool)? -/
def isPre : List Nat → List Nat → Bool
  | [], _ => true
  | _ :: _, [] => false
  | a :: as, b :: bs => a == b && isPre as bs

/-- Rust `str::contains(needle)` for a literal needle. -/
def containsSub (needle : List Nat) : List Nat → Bool
  | [] => isPre needle []
  | c :: rest => isPre needle (c :: rest) || containsSub needle rest

/-- Strip one trailing carriage return, as Rust `str::lines` does per line. -/
def trimCr (l : List Nat) : List Nat :=
  if l.getLast? = some 13 then l.dropLast else l

/-- Rust `str::lines`: split on newline, no trailing empty piece when the
text ends with a newline, one trailing carriage return removed per line. -/
def linesRust (s : List Nat) : List (List Nat) :=
  if s = [] then []
  else if s.getLast? = some 10 then ((splitOnChar 10 s).dropLast).map trimCr
  else (splitOnChar 10 s).map trimCr

/-- Is `b` a UTF-8 continuation byte? -/
def isCont (b : Nat) : Bool := 0x80 ≤ b && b ≤ 0xBF

/-- Rust `str::from_utf8`: validate a byte list as UTF-8 (rejecting overlong
forms, surrogates and values above 0x10FFFF) and return the scalar values. -/
def utf8decode : List Nat → Option (List Nat)
  | [] => some []
  | b :: rest =>
    if b ≤ 0x7F then (utf8decode rest).map (fun t => b :: t)
    else if 0xC2 ≤ b ∧ b ≤ 0xDF then
      match rest with
      | b1 :: r =>
        if isCont b1 then
          (utf8decode r).map (fun t => ((b - 0xC0) * 64 + (b1 - 0x80)) :: t)
        else none
      | [] => none
    else if 0xE0 ≤ b ∧ b ≤ 0xEF then
      match rest with
      | b1 :: b2 :: r =>
        let okB1 :=
          if b = 0xE0 then 0xA0 ≤ b1 && b1 ≤ 0xBF
          else if b = 0xED then 0x80 ≤ b1 && b1 ≤ 0x9F
          else isCont b1
        if okB1 && isCont b2 then
          (utf8decode r).map
            (fun t => ((b - 0xE0) * 4096 + (b1 - 0x80) * 64 + (b2 - 0x80)) :: t)
        else none
      | _ => none
    else if 0xF0 ≤ b ∧ b ≤ 0xF4 then
      match rest with
      | b1 :: b2 :: b3 :: r =>
        let okB1 :=
          if b = 0xF0 then 0x90 ≤ b1 && b1 ≤ 0xBF
          else if b = 0xF4 then 0x80 ≤ b1 && b1 ≤ 0x8F
          else isCont b1
        if okB1 && isCont b2 && isCont b3 then
          (utf8decode r).map
            (fun t => ((b - 0xF0) * 262144 + (b1 - 0x80) * 4096 +
                       (b2 - 0x80) * 64 + (b3 - 0x80)) :: t)
        else none
      | _ => none
    else none

/-- Digit-accumulation loop of `from_str_radix` for `u8`, radix 10. -/
def parseDigitsU8 : List Nat → Nat → Option Nat
  | [], acc => some acc
  | d :: r, acc =>
    if 48 ≤ d ∧ d ≤ 57 then
      let acc' := acc * 10 + (d - 48)
      if acc' ≤ 255 then parseDigitsU8 r acc' else none
    else none

/-- Rust `u8::from_str_radix(s, 10)`: one optional leading plus sign, at least
one digit, value at most 255; a minus sign is not a digit for `u8`. -/
def from_str_radix_u8 (s : List Nat) : Option Nat :=
  match s with
  | [] => none
  | c :: rest =>
    let ds := if c = 43 then rest else c :: rest
    match ds with
    | [] => none
    | _ => parseDigitsU8 ds 0

/-- `HttpVersion` from src/request.rs (u8 fields modelled as Nat, kept at most
255 by the parser). -/
structure HttpVersion where
  major : Nat
  minor : Nat
deriving DecidableEq, Repr

/-- `Request` from src/request.rs.  `method` and `url` are borrowed slices in
the source; `headers` is the `HashMap<String, &str>` modelled as an
association list with replace-on-insert semantics. -/
structure Request where
  method : List Nat
  url : List Nat
  version : HttpVersion
  headers : List (List Nat × List Nat)
deriving DecidableEq, Repr

/-- `ParserError` from src/request.rs (the source spells the UTF-8 variant
`Uft8Error`; the `io::Error` and `str::Utf8Error` payloads are elided). -/
inductive ParserError where
  | IOError
  | Uft8Error
  | InvalidFormat (line : Nat)
  | InvalidHttpVersion
deriving DecidableEq, Repr

/-- `ParserState` from src/request.rs. -/
inductive ParserState (T : Type) where
  | FillingBuffer
  | Done (t : T)
deriving DecidableEq, Repr

/-- `BUFFER_SIZE` from src/request.rs: the fixed 8 KB header buffer. -/
def BUFFER_SIZE : Nat := 8192

/-- `RequestParser` from src/request.rs: the written prefix of the fixed
buffer (so `buffer_position` is `buffer.length`). -/
structure RequestParser where
  buffer : List Nat
deriving DecidableEq, Repr

/-- `RequestParser::new`. -/
def RequestParser.new : RequestParser := ⟨[]⟩

/-- `HashMap::insert`: replace the value when the key is present, otherwise
append the entry. -/
def insertHeader (m : List (List Nat × List Nat)) (k v : List Nat) :
    List (List Nat × List Nat) :=
  match m with
  | [] => [(k, v)]
  | e :: rest =>
    if e.1 = k then (k, v) :: rest else e :: insertHeader rest k v

/-- `HashMap::get` on the association-list model. -/
def lookupHeader (m : List (List Nat × List Nat)) (k : List Nat) :
    Option (List Nat) :=
  match m with
  | [] => none
  | e :: rest => if e.1 = k then some e.2 else lookupHeader rest k

/-- `RequestParser::parse_version` from src/request.rs: split on the slash,
take the second segment, split it on the dot, parse the first two groups with
`u8::from_str_radix`; a missing segment, missing second group or failed digit
parse is `InvalidHttpVersion`. -/
def parse_version (text : List Nat) : Except ParserError HttpVersion :=
  match (splitOnChar 47 text).get? 1 with
  | none => Except.error ParserError.InvalidHttpVersion
  | some seg =>
    match splitOnChar 46 seg with
    | [] => Except.error ParserError.InvalidHttpVersion
    | d0 :: drest =>
      match from_str_radix_u8 d0 with
      | none => Except.error ParserError.InvalidHttpVersion
      | some major =>
        match drest with
        | [] => Except.error ParserError.InvalidHttpVersion
        | d1 :: _ =>
          match from_str_radix_u8 d1 with
          | none => Except.error ParserError.InvalidHttpVersion
          | some minor => Except.ok ⟨major, minor⟩

/-- The header loop of `RequestParser::parse`: for each nonempty line split on
the colon, the part before the first colon trimmed and lowercased is the name,
the part between the first and second colon left-trimmed is the value; a line
with no colon fails with `InvalidFormat` at that line (numbered from 2).
Empty lines are skipped; `n` is the `enumerate` counter. -/
def parseHeaders : List (List Nat) → Nat →
    List (List Nat × List Nat) →
    Except ParserError (List (List Nat × List Nat))
  | [], _, acc => Except.ok acc
  | line :: rest, n, acc =>
    if 0 < line.length then
      match splitOnChar 58 line with
      | [] => Except.error (ParserError.InvalidFormat (n + 2))
      | name0 :: restParts =>
        match restParts with
        | [] => Except.error (ParserError.InvalidFormat (n + 2))
        | v :: _ =>
          parseHeaders rest (n + 1)
            (insertHeader acc (toLowercase (trimWs name0)) (trimLeft v))
    else parseHeaders rest (n + 1) acc

/-- Continuation of `RequestParser::parse` after the version token has been
parsed: propagate a version error, otherwise run the header loop and
assemble the `Request`. -/
def parseWithVersion (method url : List Nat)
    (v : Except ParserError HttpVersion) (rest : List (List Nat)) :
    Except ParserError Request :=
  match v with
  | Except.error e => Except.error e
  | Except.ok version =>
    match parseHeaders rest 0 [] with
    | Except.error e => Except.error e
    | Except.ok headers => Except.ok ⟨method, url, version, headers⟩

/-- The initial-line step of `RequestParser::parse`: the whitespace tokens of
the first line must supply a method, a url and a version token (otherwise
`InvalidFormat` at line 1; extra tokens are ignored, as the source only calls
`next()` three times), and the version token goes to `parse_version`. -/
def parseLine (toks : List (List Nat)) (rest : List (List Nat)) :
    Except ParserError Request :=
  match toks with
  | method :: url :: version_text :: _ =>
    parseWithVersion method url (parse_version version_text) rest
  | _ => Except.error (ParserError.InvalidFormat 1)

/-- `RequestParser::parse` on the line list: `lines.next()` on an empty text
fails with `InvalidFormat` at line 1, otherwise the first line is tokenized
on whitespace and the remaining lines feed the header loop. -/
def parseAt (ls : List (List Nat)) : Except ParserError Request :=
  match ls with
  | [] => Except.error (ParserError.InvalidFormat 1)
  | initial :: rest => parseLine (splitWs initial) rest

/-- `RequestParser::parse` from src/request.rs. -/
def parse (content : List Nat) : Except ParserError Request :=
  parseAt (linesRust content)

/-- Body of `RequestParser::read_stream` once the bytes actually delivered by
the `read` call (`data`) are known: `buffer_position` advances by the bytes
read, then the newly read bytes alone are UTF-8-decoded (`Uft8Error` on
failure) and searched for a head terminator; when one is found the whole
buffer is decoded and parsed, otherwise the call reports `FillingBuffer`. -/
def readStreamCore (p : RequestParser) (data : List Nat) :
    Except ParserError (ParserState Request) × RequestParser :=
  match utf8decode data with
  | none => (Except.error ParserError.Uft8Error, ⟨p.buffer ++ data⟩)
  | some s =>
    if containsSub (s2l "\r\n\r\n") s || containsSub (s2l "\n\n") s then
      match utf8decode (p.buffer ++ data) with
      | none => (Except.error ParserError.Uft8Error, ⟨p.buffer ++ data⟩)
      | some all =>
        match parse all with
        | Except.error e => (Except.error e, ⟨p.buffer ++ data⟩)
        | Except.ok r => (Except.ok (ParserState.Done r), ⟨p.buffer ++ data⟩)
    else (Except.ok ParserState.FillingBuffer, ⟨p.buffer ++ data⟩)

/-- `RequestParser::read_stream` from src/request.rs: the source writes into
the unused buffer tail, so the bytes delivered by one `read` call are the
offered chunk truncated to `BUFFER_SIZE - buffer_position`; the pair returned
is the Rust return value together with the mutated parser. -/
def read_stream (p : RequestParser) (chunk : List Nat) :
    Except ParserError (ParserState Request) × RequestParser :=
  readStreamCore p (chunk.take (BUFFER_SIZE - p.buffer.length))

/-- Modelled from the spec: the `Method` classification of §3 is absent from
src/request.rs (the source stores the method token verbatim as a string
slice); this datatype follows the spec's closed verb set plus the open
`UNSUPPORTED` variant carrying the original token. -/
inductive Method where
  | DELETE
  | GET
  | POST
  | PUT
  | UPDATE
  | UNSUPPORTED (tok : List Nat)
deriving DecidableEq, Repr

/-- Modelled from the spec: classify a method token against the closed verb
set by case-sensitive exact match; anything else is `UNSUPPORTED(token)`. -/
def classifyMethod (tok : List Nat) : Method :=
  if tok = s2l "DELETE" then Method.DELETE
  else if tok = s2l "GET" then Method.GET
  else if tok = s2l "POST" then Method.POST
  else if tok = s2l "PUT" then Method.PUT
  else if tok = s2l "UPDATE" then Method.UPDATE
  else Method.UNSUPPORTED tok

instance {ε α : Type} [DecidableEq ε] [DecidableEq α] : DecidableEq (Except ε α)
  | Except.error e, Except.error f =>
    if h : e = f then isTrue (by rw [h]) else isFalse (by simp [h])
  | Except.error _, Except.ok _ => isFalse (by simp)
  | Except.ok _, Except.error _ => isFalse (by simp)
  | Except.ok a, Except.ok b =>
    if h : a = b then isTrue (by rw [h]) else isFalse (by simp [h])

-- Sanity checks mirroring the repository's own unit tests.
example : parse_version (s2l "HTTP/1.0") = Except.ok ⟨1, 0⟩ := by decide
example : parse_version (s2l "HTTP_1.0") =
    Except.error ParserError.InvalidHttpVersion := by decide
example : parse_version (s2l "HTTP/1") =
    Except.error ParserError.InvalidHttpVersion := by decide
example :
    parse (s2l "GET 	/test/1234  HTTP/1.1\n  Header1 : it\n  Header2:   works  \n\n") =
    Except.ok ⟨s2l "GET", s2l "/test/1234", ⟨1, 1⟩,
      [(s2l "header1", s2l "it"), (s2l "header2", s2l "works  ")]⟩ := by decide

lemma readStreamCore_nil (p : RequestParser) :
    readStreamCore p [] = (Except.ok ParserState.FillingBuffer, p) := by
  have h1 : readStreamCore p [] =
      (Except.ok ParserState.FillingBuffer, (⟨p.buffer ++ []⟩ : RequestParser)) := rfl
  rw [h1, List.append_nil]

/-- C1: the claim says a whitespace-led line is folded into the preceding
header's value, so that the head with header lines "Header2 : the" then a
tab-led "fox jumped" parses to header2 = "the fox jumped".  In the source
there is no continuation handling at all: the tab-led line is processed like
any other line, has no colon, and `parse` fails with InvalidFormat at line 3.
This theorem proves the claimed parse fails, refuting the claim. -/
theorem c1_no_continuation_folding_counterexample :
    parse (s2l "GET / HTTP/1.0\nHeader2 : the\n\tfox jumped\n\n") =
      Except.error (ParserError.InvalidFormat 3) := by decide

/-- C1 (amended): the parser performs no continuation folding.  A line
beginning with whitespace is processed like any other line: if it lacks a
colon `parse` fails with InvalidFormat at that line (so the claimed
"Header2 : the" / tab-led "fox jumped" head fails at line 3), and if it does
contain a colon it IS consumed as a standalone header with its name trimmed
(as in the repository's own test, whose header lines are indented). -/
theorem c1_whitespace_led_lines_amended :
    parse (s2l "GET / HTTP/1.0\nHeader2 : the\n\tfox jumped\n\n") =
      Except.error (ParserError.InvalidFormat 3) ∧
    parse (s2l "GET / HTTP/1.0\n  Header1 : it\n\n") =
      Except.ok ⟨s2l "GET", s2l "/", ⟨1, 0⟩, [(s2l "header1", s2l "it")]⟩ := by
  decide

/-- C2: the claim (and spec §9) require that a full 8192-byte buffer with no
terminator make the next `read_stream` call fail with `BufferOverflow`.  The
source has no `BufferOverflow` variant at all: with the buffer full the
`read` call is handed a zero-length slice, zero bytes arrive, and
`read_stream` returns `Ok(FillingBuffer)` with the state unchanged — forever.
This theorem evaluates the code at the failing input, exhibiting the bug. -/
theorem c2_full_buffer_returns_fillingBuffer (p : RequestParser)
    (chunk : List Nat) (h : p.buffer.length = BUFFER_SIZE) :
    read_stream p chunk = (Except.ok ParserState.FillingBuffer, p) := by
  unfold read_stream
  rw [h, Nat.sub_self, List.take_zero]
  exact readStreamCore_nil p

/-- C2 witness: a concrete full buffer (8192 bytes of "a") fed a terminator
chunk still yields `FillingBuffer` with the buffer unchanged. -/
theorem c2_full_buffer_returns_fillingBuffer_witness :
    read_stream ⟨List.replicate BUFFER_SIZE 97⟩ (s2l "\n\n") =
      (Except.ok ParserState.FillingBuffer, ⟨List.replicate BUFFER_SIZE 97⟩) :=
  c2_full_buffer_returns_fillingBuffer ⟨List.replicate BUFFER_SIZE 97⟩
    (s2l "\n\n") (by simp)

/-- C3: the claim says `read_stream` fails with Utf8Error iff the newly read
bytes interpreted TOGETHER WITH the previously buffered bytes are not valid
UTF-8, and in particular that a multi-byte character split across two reads
causes no error.  The source validates the new bytes ALONE: with 0xC3 already
buffered (reachable, since `buffer_position` is advanced before validation),
delivering the second byte 0xA9 of the two-byte character U+00E9 fails with
`Uft8Error` even though the combined buffer [0xC3, 0xA9] is valid UTF-8. -/
theorem c3_utf8_combined_validation_counterexample :
    read_stream ⟨[0xC3]⟩ [0xA9] =
      (Except.error ParserError.Uft8Error, ⟨[0xC3, 0xA9]⟩) ∧
    utf8decode [0xC3, 0xA9] = some [0xE9] ∧
    read_stream RequestParser.new [0xC3] =
      (Except.error ParserError.Uft8Error, ⟨[0xC3]⟩) := by decide

/-- C3 (amended): `read_stream` validates only the newly read bytes.  When
the delivered bytes alone decode as UTF-8 and contain no terminator, the call
succeeds with `FillingBuffer` regardless of what is already buffered (the old
bytes are not consulted); and a multi-byte character split across two reads
DOES produce `Uft8Error` on each of the two calls. -/
theorem c3_utf8_new_bytes_only_amended :
    (∀ (p : RequestParser) (chunk s : List Nat),
        utf8decode (chunk.take (BUFFER_SIZE - p.buffer.length)) = some s →
        containsSub (s2l "\r\n\r\n") s = false →
        containsSub (s2l "\n\n") s = false →
        read_stream p chunk =
          (Except.ok ParserState.FillingBuffer,
            ⟨p.buffer ++ chunk.take (BUFFER_SIZE - p.buffer.length)⟩)) ∧
    read_stream RequestParser.new [0xC3] =
      (Except.error ParserError.Uft8Error, ⟨[0xC3]⟩) ∧
    read_stream ⟨[0xC3]⟩ [0xA9] =
      (Except.error ParserError.Uft8Error, ⟨[0xC3, 0xA9]⟩) := by
  refine ⟨?_, by decide, by decide⟩
  intro p chunk s hdec h1 h2
  unfold read_stream readStreamCore
  rw [hdec]
  simp [h1, h2]

/-- C3 witness: with the invalid byte 0xC3 already buffered, the valid chunk
"ab" is accepted and appended — the buffered bytes are never re-examined. -/
theorem c3_utf8_new_bytes_only_amended_witness :
    read_stream ⟨[0xC3]⟩ (s2l "ab") =
      (Except.ok ParserState.FillingBuffer, ⟨[0xC3, 97, 98]⟩) :=
  c3_utf8_new_bytes_only_amended.1 ⟨[0xC3]⟩ (s2l "ab") (s2l "ab")
    (by decide) (by decide) (by decide)

/-- C4: the claim says `parse_version` requires EXACTLY two digit groups and
strict unsigned parsing with no leading plus sign.  The source takes the
first two groups of the dot-split and ignores the rest: "HTTP/1.0.5"
succeeds with major 1, minor 0, refuting the exactly-two requirement. -/
theorem c4_extra_digit_group_accepted_counterexample :
    parse_version (s2l "HTTP/1.0.5") = Except.ok ⟨1, 0⟩ := by decide

/-- C4 (amended): `parse_version` splits on the slash and requires a second
segment, splits that on the dot and parses the FIRST TWO groups with Rust
`u8::from_str_radix` semantics — an optional leading plus sign is accepted, a
minus sign, empty group, non-digit or value above 255 fails — and any further
dot groups or slash segments are ignored.  "HTTP/1.0" yields major 1 minor 0;
"HTTP_1.0" and "HTTP/1" fail with InvalidHttpVersion. -/
theorem c4_parse_version_amended :
    parse_version (s2l "HTTP/1.0") = Except.ok ⟨1, 0⟩ ∧
    parse_version (s2l "HTTP_1.0") =
      Except.error ParserError.InvalidHttpVersion ∧
    parse_version (s2l "HTTP/1") =
      Except.error ParserError.InvalidHttpVersion ∧
    parse_version (s2l "HTTP/1.0.5") = Except.ok ⟨1, 0⟩ ∧
    parse_version (s2l "HTTP/+1.0") = Except.ok ⟨1, 0⟩ ∧
    parse_version (s2l "HTTP/-1.0") =
      Except.error ParserError.InvalidHttpVersion ∧
    parse_version (s2l "HTTP/.0") =
      Except.error ParserError.InvalidHttpVersion ∧
    parse_version (s2l "HTTP/256.0") =
      Except.error ParserError.InvalidHttpVersion ∧
    parse_version (s2l "HTTP/1.0/9") = Except.ok ⟨1, 0⟩ := by decide

/-- C6: the claim says any initial-line token count other than three fails
with `InvalidInitialLine` carrying the line.  The source only takes the first
three whitespace tokens and ignores the rest: a four-token initial line
parses successfully, refuting the exactly-three requirement. -/
theorem c6_extra_tokens_accepted_counterexample :
    parse (s2l "GET /test HTTP/1.0 EXTRA\n\n") =
      Except.ok ⟨s2l "GET", s2l "/test", ⟨1, 0⟩, []⟩ := by decide

/-- C6 (amended): an initial line with FEWER than three whitespace tokens
fails with `InvalidFormat` at line 1 (there is no `InvalidInitialLine`
variant and the line text is not carried); tokens beyond the third are
ignored, so an initial line with four or more tokens parses successfully. -/
theorem c6_initial_line_token_count_amended :
    parse (s2l "GET /test\n\n") = Except.error (ParserError.InvalidFormat 1) ∧
    parse (s2l "GET\n\n") = Except.error (ParserError.InvalidFormat 1) ∧
    parse (s2l "GET /test HTTP/1.0 EXTRA\n\n") =
      Except.ok ⟨s2l "GET", s2l "/test", ⟨1, 0⟩, []⟩ := by decide

/-- C7: the claim says `parse` fails with `InvalidFormat` when the remainder
after the initial line lacks the blank-line terminator.  The source's `parse`
performs no terminator check at all (termination detection lives only in
`read_stream`): a head with no blank line parses successfully. -/
theorem c7_no_terminator_check_counterexample :
    parse (s2l "GET / HTTP/1.0\nHeader1: x") =
      Except.ok ⟨s2l "GET", s2l "/", ⟨1, 0⟩, [(s2l "header1", s2l "x")]⟩ := by
  decide

/-- C7 (amended): `parse` never looks for the blank-line terminator; a head
whose remainder lacks it (in either newline convention) still returns a
`Request` provided each nonempty line is otherwise well-formed. -/
theorem c7_parse_ignores_terminator_amended :
    parse (s2l "GET / HTTP/1.0\nHeader1: x") =
      Except.ok ⟨s2l "GET", s2l "/", ⟨1, 0⟩, [(s2l "header1", s2l "x")]⟩ ∧
    parse (s2l "GET / HTTP/1.0\r\nHeader1: x\r\n") =
      Except.ok ⟨s2l "GET", s2l "/", ⟨1, 0⟩, [(s2l "header1", s2l "x")]⟩ := by
  decide

/-- C9: feeding the head "GET /test/1234 HTTP/1.1\nHeader1: it\nHeader2:
works\n\n" in two chunks — the initial 15 bytes "GET /test/1234 " and then
the remainder — makes the first `read_stream` call return `FillingBuffer`
and the second return `Done` with url "/test/1234". -/
theorem c9_two_chunk_streaming :
    read_stream RequestParser.new (s2l "GET /test/1234 ") =
      (Except.ok ParserState.FillingBuffer, ⟨s2l "GET /test/1234 "⟩) ∧
    read_stream ⟨s2l "GET /test/1234 "⟩
        (s2l "HTTP/1.1\nHeader1: it\nHeader2: works\n\n") =
      (Except.ok (ParserState.Done
          ⟨s2l "GET", s2l "/test/1234", ⟨1, 1⟩,
            [(s2l "header1", s2l "it"), (s2l "header2", s2l "works")]⟩),
        ⟨s2l "GET /test/1234 HTTP/1.1\nHeader1: it\nHeader2: works\n\n"⟩) := by
  decide

/-- C10: a `read` call that delivers zero bytes makes `read_stream` return
`Ok(FillingBuffer)` and leaves the accumulator — write cursor and buffered
bytes — exactly as before; no error and no `Done` result is produced. -/
theorem c10_zero_byte_read_is_noop (p : RequestParser) :
    read_stream p [] = (Except.ok ParserState.FillingBuffer, p) := by
  unfold read_stream
  rw [List.take_nil]
  exact readStreamCore_nil p

lemma lowerChar_idem (c : Nat) : lowerChar (lowerChar c) = lowerChar c := by
  by_cases h : 65 ≤ c ∧ c ≤ 90
  · simp only [lowerChar, if_pos h]
    rw [if_neg (by omega)]
  · simp only [lowerChar, if_neg h]

lemma toLowercase_idem (s : List Nat) :
    toLowercase (toLowercase s) = toLowercase s := by
  induction s with
  | nil => rfl
  | cons c t ih =>
    simp only [toLowercase, List.map_cons] at ih ⊢
    rw [lowerChar_idem, ih]

lemma mem_insertHeader {m : List (List Nat × List Nat)} {k v : List Nat}
    {p : List Nat × List Nat} (h : p ∈ insertHeader m k v) :
    p ∈ m ∨ p = (k, v) := by
  induction m with
  | nil =>
    simp only [insertHeader, List.mem_singleton] at h
    exact Or.inr h
  | cons e t ih =>
    simp only [insertHeader] at h
    split at h
    · rcases List.mem_cons.mp h with h' | h'
      · exact Or.inr h'
      · exact Or.inl (List.mem_cons_of_mem _ h')
    · rcases List.mem_cons.mp h with h' | h'
      · exact Or.inl (h' ▸ List.mem_cons_self _ _)
      · rcases ih h' with h'' | h''
        · exact Or.inl (List.mem_cons_of_mem _ h'')
        · exact Or.inr h''

lemma parseHeaders_keys_lower (ls : List (List Nat)) :
    ∀ (n : Nat) (acc m : List (List Nat × List Nat)),
      (∀ p ∈ acc, toLowercase p.1 = p.1) →
      parseHeaders ls n acc = Except.ok m →
      ∀ p ∈ m, toLowercase p.1 = p.1 := by
  induction ls with
  | nil =>
    intro n acc m hacc h
    simp only [parseHeaders, Except.ok.injEq] at h
    exact h ▸ hacc
  | cons line rest ih =>
    intro n acc m hacc h
    simp only [parseHeaders] at h
    split at h
    · split at h
      · simp at h
      · split at h
        · simp at h
        · refine ih (n + 1) _ m ?_ h
          intro p hp
          rcases mem_insertHeader hp with h' | h'
          · exact hacc p h'
          · rw [h']
            exact toLowercase_idem _
    · exact ih (n + 1) acc m hacc h

/-- C8: in every successfully parsed `Request` every header key is lowercase
(its own lowercasing), hence no two keys differ only by case; and parsing a
head with the line "Header1: x" then querying "header1" returns "x". -/
theorem c8_header_keys_lowercase :
    (∀ (content : List Nat) (r : Request), parse content = Except.ok r →
        ∀ p ∈ r.headers, toLowercase p.1 = p.1) ∧
    (∀ (content : List Nat) (r : Request), parse content = Except.ok r →
        ∀ p ∈ r.headers, ∀ q ∈ r.headers,
          toLowercase p.1 = toLowercase q.1 → p.1 = q.1) ∧
    (∃ r : Request,
        parse (s2l "GET / HTTP/1.0\nHeader1: x\n\n") = Except.ok r ∧
        lookupHeader r.headers (s2l "header1") = some (s2l "x")) := by
  have hmain : ∀ (content : List Nat) (r : Request),
      parse content = Except.ok r → ∀ p ∈ r.headers, toLowercase p.1 = p.1 := by
    intro content r h
    unfold parse parseAt at h
    split at h
    · simp at h
    · unfold parseLine at h
      split at h
      · unfold parseWithVersion at h
        split at h
        · simp at h
        · split at h
          · simp at h
          · rename_i hh
            rw [Except.ok.injEq] at h
            subst h
            exact parseHeaders_keys_lower _ 0 [] _ (by simp) hh
      · simp at h
  refine ⟨hmain, ?_, ?_⟩
  · intro content r h p hp q hq he
    rw [← hmain content r h p hp, he, hmain content r h q hq]
  · exact ⟨⟨s2l "GET", s2l "/", ⟨1, 0⟩, [(s2l "header1", s2l "x")]⟩,
      by decide, by decide⟩

/-- C8 witness: the invariant applied to the concrete head of the claim. -/
theorem c8_header_keys_lowercase_witness :
    toLowercase (s2l "header1") = s2l "header1" :=
  c8_header_keys_lowercase.1 (s2l "GET / HTTP/1.0\nHeader1: x\n\n")
    ⟨s2l "GET", s2l "/", ⟨1, 0⟩, [(s2l "header1", s2l "x")]⟩ (by decide)
    (s2l "header1", s2l "x") (by decide)

lemma splitOnCharAux_append (sep : Nat) (l r acc : List Nat)
    (h : ∀ c ∈ l, c ≠ sep) :
    splitOnCharAux sep (l ++ r) acc = splitOnCharAux sep r (l.reverse ++ acc) := by
  induction l generalizing acc with
  | nil => simp
  | cons c t ih =>
    have hc : ¬(c = sep) := h c (List.mem_cons_self c t)
    simp only [List.cons_append, splitOnCharAux, if_neg hc, List.append_eq]
    rw [ih (c :: acc) (fun x hx => h x (List.mem_cons_of_mem _ hx))]
    simp

lemma splitWsAux_append (l r acc : List Nat) (h : ∀ c ∈ l, isWs c = false) :
    splitWsAux (l ++ r) acc = splitWsAux r (l.reverse ++ acc) := by
  induction l generalizing acc with
  | nil => simp
  | cons c t ih =>
    have hc : isWs c = false := h c (List.mem_cons_self c t)
    simp only [List.cons_append, splitWsAux, hc, Bool.false_eq_true, if_false,
      List.append_eq]
    rw [ih (c :: acc) (fun x hx => h x (List.mem_cons_of_mem _ hx))]
    simp

/-- C5: the source's parser stores the method token verbatim and never
rejects it: any nonempty whitespace-free token in method position yields a
successful parse carrying that token.  The `Method` classification of the
spec (absent from src) is modelled by `classifyMethod`: tokens outside the
five known verbs classify as `UNSUPPORTED(original token)` and each of the
five verbs classifies as itself. -/
theorem c5_method_classification :
    (∀ m : List Nat, m ≠ [] → (∀ c ∈ m, isWs c = false) →
        parse (m ++ s2l " / HTTP/1.0\n\n") =
          Except.ok ⟨m, s2l "/", ⟨1, 0⟩, []⟩ ∧
        (m ≠ s2l "DELETE" → m ≠ s2l "GET" → m ≠ s2l "POST" →
          m ≠ s2l "PUT" → m ≠ s2l "UPDATE" →
          classifyMethod m = Method.UNSUPPORTED m)) ∧
    classifyMethod (s2l "DELETE") = Method.DELETE ∧
    classifyMethod (s2l "GET") = Method.GET ∧
    classifyMethod (s2l "POST") = Method.POST ∧
    classifyMethod (s2l "PUT") = Method.PUT ∧
    classifyMethod (s2l "UPDATE") = Method.UPDATE := by
  refine ⟨?_, by decide, by decide, by decide, by decide, by decide⟩
  intro m hne hws
  constructor
  · have htail : s2l " / HTTP/1.0\n\n" =
        [32, 47, 32, 72, 84, 84, 80, 47, 49, 46, 48, 10, 10] := by decide
    have hinit : s2l " / HTTP/1.0" =
        [32, 47, 32, 72, 84, 84, 80, 47, 49, 46, 48] := by decide
    have hnl : ∀ c ∈ m, c ≠ 10 := by
      intro c hc he
      have h10 := hws c hc
      rw [he] at h10
      simp [isWs] at h10
    have hrev : ¬(m.reverse = []) := by
      simpa using hne
    have hnonnil : m ++ s2l " / HTTP/1.0\n\n" ≠ [] := by
      rw [htail]
      simp
    have hsplit : splitOnCharAux 10 (s2l " / HTTP/1.0\n\n") (m.reverse ++ []) =
        [m ++ s2l " / HTTP/1.0", [], []] := by
      rw [List.append_nil, htail, hinit]
      simp [splitOnCharAux]
    have htc1 : trimCr (m ++ s2l " / HTTP/1.0") = m ++ s2l " / HTTP/1.0" := by
      unfold trimCr
      rw [List.getLast?_append_of_ne_nil _ (show s2l " / HTTP/1.0" ≠ [] by decide),
        if_neg (show ¬((s2l " / HTTP/1.0").getLast? = some 13) by decide)]
    have hlines : linesRust (m ++ s2l " / HTTP/1.0\n\n") =
        [m ++ s2l " / HTTP/1.0", []] := by
      unfold linesRust
      rw [if_neg hnonnil,
        List.getLast?_append_of_ne_nil _ (show s2l " / HTTP/1.0\n\n" ≠ [] by decide),
        if_pos (show (s2l " / HTTP/1.0\n\n").getLast? = some 10 by decide)]
      unfold splitOnChar
      rw [splitOnCharAux_append 10 m _ [] hnl, hsplit]
      have hd : ([m ++ s2l " / HTTP/1.0", [], []] : List (List Nat)).dropLast =
          [m ++ s2l " / HTTP/1.0", []] := rfl
      rw [hd]
      simp only [List.map_cons, List.map_nil, htc1]
      rw [show trimCr ([] : List Nat) = [] from rfl]
    have htoks : splitWs (m ++ s2l " / HTTP/1.0") =
        [m, s2l "/", s2l "HTTP/1.0"] := by
      unfold splitWs
      rw [splitWsAux_append m _ [] hws, List.append_nil, hinit,
        show s2l "/" = [47] from by decide,
        show s2l "HTTP/1.0" = [72, 84, 84, 80, 47, 49, 46, 48] from by decide]
      simp [splitWsAux, isWs, hrev]
    unfold parse
    rw [hlines]
    simp only [parseAt]
    rw [htoks]
    simp only [parseLine]
    rw [show parse_version (s2l "HTTP/1.0") = Except.ok ⟨1, 0⟩ from by decide]
    simp only [parseWithVersion]
    rw [show parseHeaders [[]] 0 [] = Except.ok [] from by decide]
  · intro h1 h2 h3 h4 h5
    simp only [classifyMethod, if_neg h1, if_neg h2, if_neg h3, if_neg h4,
      if_neg h5]

/-- C5 witness: the unknown token "FOO" parses successfully with the token
stored verbatim, and classifies as UNSUPPORTED("FOO"). -/
theorem c5_method_classification_witness :
    parse (s2l "FOO" ++ s2l " / HTTP/1.0\n\n") =
      Except.ok ⟨s2l "FOO", s2l "/", ⟨1, 0⟩, []⟩ ∧
    classifyMethod (s2l "FOO") = Method.UNSUPPORTED (s2l "FOO") := by
  have h := c5_method_classification.1 (s2l "FOO") (by decide) (by decide)
  exact ⟨h.1, h.2 (by decide) (by decide) (by decide) (by decide) (by decide)⟩

end RustHttp
